import Mathlib

/-!
Verification of the `document_extraction` repository.

This development shallowly embeds the algorithmic core of the repository:

* `evaluation/metrics.py` — `normalize_value`, `compare_values`,
  `calculate_field_metrics` (the evaluation engine);
* `src/document_extraction/ocr/tesseract_ocr.py` — `extract_from_multiple`
  (multi-page OCR aggregation);
* `src/document_extraction/pipeline.py` — `ExtractionPipeline.process_file`
  and `ExtractionResult.to_dict` (orchestration);
* `src/document_extraction/preprocessing/image_enhancer.py` —
  `ImageEnhancer._deskew_image` (deskew control flow);
* `src/document_extraction/llm/mock_client.py` — the simulated LLM backend.

Python strings are embedded as `List Char`; Python `float` values are
embedded as rationals (each float literal appearing in the sources denotes
a rational, and none of the comparisons proved here is sensitive to
floating-point rounding at the inputs used).  Python `None` and exceptions
are embedded with `Option` and `Except`.  External collaborators (the OCR
engine, the regex engine, OpenCV's `arctan2`, the clock and the process
RNG) enter as explicit oracle parameters, so every embedded function is a
pure function of its inputs and those oracles.
-/

namespace DocExtract

/-! ## Embedded Python string primitives -/

/-- ASCII whitespace, as recognised by Python's argument-less `str.split`
and `str.strip` (restricted to the ASCII range for this embedding). -/
def pyIsWs (c : Char) : Bool :=
  c = ' ' ∨ c = '\t' ∨ c = '\n' ∨ c = '\r' ∨ c = '\x0b' ∨ c = '\x0c'

/-- The 26 uppercase/lowercase ASCII letter pairs used to embed
`str.lower` (restricted to ASCII for this embedding). -/
def upperLowerPairs : List (Char × Char) :=
  [('A', 'a'), ('B', 'b'), ('C', 'c'), ('D', 'd'), ('E', 'e'), ('F', 'f'),
   ('G', 'g'), ('H', 'h'), ('I', 'i'), ('J', 'j'), ('K', 'k'), ('L', 'l'),
   ('M', 'm'), ('N', 'n'), ('O', 'o'), ('P', 'p'), ('Q', 'q'), ('R', 'r'),
   ('S', 's'), ('T', 't'), ('U', 'u'), ('V', 'v'), ('W', 'w'), ('X', 'x'),
   ('Y', 'y'), ('Z', 'z')]

/-- Lowercase a single character (embeds `str.lower` pointwise). -/
def pyLowerChar (c : Char) : Char :=
  (upperLowerPairs.lookup c).getD c

/-- Embeds `str.lower`. -/
def pyLower (s : List Char) : List Char :=
  s.map pyLowerChar

/-- Strip trailing whitespace (the right half of `str.strip`). -/
def stripRight : List Char → List Char
  | [] => []
  | c :: rest =>
    match stripRight rest with
    | [] => if pyIsWs c then [] else [c]
    | r => c :: r

/-- Embeds `str.strip` (no arguments: strip whitespace at both ends). -/
def pyStrip (s : List Char) : List Char :=
  stripRight (s.dropWhile pyIsWs)

/-- Accumulator worker for `splitWs`: `cur` holds the characters of the
token currently being read, in reverse. -/
def splitWsAux : List Char → List Char → List (List Char)
  | [], cur => if cur = [] then [] else [cur.reverse]
  | c :: rest, cur =>
    if pyIsWs c then
      if cur = [] then splitWsAux rest []
      else cur.reverse :: splitWsAux rest []
    else splitWsAux rest (c :: cur)

/-- Embeds the argument-less `str.split`: split on runs of whitespace,
producing no empty tokens. -/
def splitWs (l : List Char) : List (List Char) :=
  splitWsAux l []

/-- Embeds `" ".join(tokens)`. -/
def joinSpace : List (List Char) → List Char
  | [] => []
  | [t] => t
  | t :: ts => t ++ ' ' :: joinSpace ts

/-- Embeds `" ".join(s.split())`: collapse whitespace runs to one space. -/
def collapseWs (s : List Char) : List Char :=
  joinSpace (splitWs s)

/-- Embeds `s.replace(c, " ")` for a single character `c`. -/
def pyReplaceToSpace (c : Char) (s : List Char) : List Char :=
  s.map (fun x => if x = c then ' ' else x)

/-- The fixed punctuation set of `normalize_value`
(`[".", ",", ";", ":", "-", "_", "'"]` in `evaluation/metrics.py`). -/
def punctChars : List Char :=
  ['.', ',', ';', ':', '-', '_', '\'']

/-- Embeds the `for char in [...]: value_str = value_str.replace(char, " ")`
loop of `normalize_value`. -/
def replacePunct (s : List Char) : List Char :=
  punctChars.foldl (fun acc c => pyReplaceToSpace c acc) s

/-! ### Executable rational helpers

Mathlib's `⌊·⌋`, `|·|`, `max` and `min` on `ℚ` go through typeclass
chains the kernel does not evaluate, so the embedding uses these
explicit equivalents (proved below to agree with the library notions
where a proof needs that). -/

/-- Floor of a rational (`Int.fdiv` is floor division). -/
def ratFloor (q : ℚ) : ℤ :=
  Int.fdiv q.num (q.den : ℤ)

/-- Absolute value of a rational. -/
def ratAbs (q : ℚ) : ℚ :=
  if q < 0 then -q else q

/-- Maximum of two rationals. -/
def ratMax (a b : ℚ) : ℚ :=
  if a ≤ b then b else a

/-- Minimum of two rationals. -/
def ratMin (a b : ℚ) : ℚ :=
  if a ≤ b then a else b

/-! ## Embedded Python values (arguments of the evaluation engine) -/

/-- A Python value as handled by `normalize_value`/`compare_values`:
`None`, a string, an int or a float (floats embedded as the rationals
their source literals denote). -/
inductive Value where
  | none : Value
  | str (s : List Char) : Value
  | int (n : ℤ) : Value
  | float (q : ℚ) : Value
deriving DecidableEq

/-- Decimal digits of the fraction `rem / d` (`0 ≤ rem < d`), by long
division with fuel (Python prints the shortest decimal form of a float;
for the terminating decimals appearing in this development the two
agree). -/
def fracDigits (d : ℕ) : ℕ → ℕ → List Char
  | _, 0 => []
  | rem, fuel + 1 =>
    if rem = 0 then []
    else Char.ofNat (48 + rem * 10 / d) :: fracDigits d (rem * 10 % d) fuel

/-- Embeds `str(x)` for a Python float (e.g. `str(1200.0) = "1200.0"`),
computed by long division on the reduced numerator/denominator. -/
def pyStrFloat (q : ℚ) : List Char :=
  let sign : List Char := if q.num < 0 then ['-'] else []
  let a : ℕ := q.num.natAbs
  let ip : ℕ := a / q.den
  let rem : ℕ := a % q.den
  sign ++ (toString ip).toList ++
    (if rem = 0 then ['.', '0'] else '.' :: fracDigits q.den rem 40)

/-- Embeds `str(value)` on the values above (`str(None)` never reaches
`normalize_value`'s string pipeline, but is included for totality). -/
def pyStr : Value → List Char
  | .none => "None".toList
  | .str s => s
  | .int n => (toString n).toList
  | .float q => pyStrFloat q

/-- Truthiness of an embedded value (`bool(x)` — used by Python's
`and`/`or`/`if`): `None`, `""`, `0` and `0.0` are falsy. -/
def pyTruthy : Value → Bool
  | .none => false
  | .str s => s ≠ []
  | .int n => n ≠ 0
  | .float q => q ≠ 0

/-! ### Embedded `float(x)` conversion -/

/-- Consume a run of decimal digits, returning their value, how many
there were, and the rest of the input. -/
def takeDigits : List Char → ℕ → ℕ → ℕ × ℕ × List Char
  | [], acc, n => (acc, n, [])
  | c :: rest, acc, n =>
    if c.isDigit then takeDigits rest (acc * 10 + (c.toNat - 48)) (n + 1)
    else (acc, n, c :: rest)

/-- Parse the digit part `digits [. digits]` of a Python float literal,
returning its rational value. -/
def parseDecimalBody (s : List Char) : Option (ℚ × List Char) :=
  let (ip, ipLen, rest) := takeDigits s 0 0
  match rest with
  | '.' :: rest2 =>
    let (fp, fpLen, rest3) := takeDigits rest2 0 0
    if ipLen = 0 ∧ fpLen = 0 then Option.none
    else some ((ip : ℚ) + (fp : ℚ) / ((10 : ℚ) ^ fpLen), rest3)
  | _ => if ipLen = 0 then Option.none else some ((ip : ℚ), rest)

/-- Parse an optional exponent suffix `e[sign]digits`. -/
def parseExponent (q : ℚ) (s : List Char) : Option ℚ :=
  match s with
  | [] => some q
  | c :: rest =>
    if c = 'e' ∨ c = 'E' then
      let (sgn, rest2) : ℤ × List Char :=
        match rest with
        | '+' :: r => (1, r)
        | '-' :: r => (-1, r)
        | r => (1, r)
      let (e, eLen, rest3) := takeDigits rest2 0 0
      if eLen = 0 ∨ rest3 ≠ [] then Option.none
      else some (q * (10 : ℚ) ^ (sgn * (e : ℤ)))
    else Option.none

/-- Embeds `float(s)` on a string: strip whitespace, optional sign,
decimal body, optional exponent (`inf`/`nan`/underscores are not
modelled; they never yield a rational comparison in `compare_values`). -/
def pyFloatOfString (s : List Char) : Option ℚ :=
  let t := pyStrip s
  let (sgn, body) : ℚ × List Char :=
    match t with
    | '+' :: r => (1, r)
    | '-' :: r => (-1, r)
    | r => (1, r)
  match parseDecimalBody body with
  | some (q, rest) => (parseExponent q rest).map (fun v => sgn * v)
  | Option.none => Option.none

/-- Embeds `float(x)` as used in `compare_values`; a `TypeError` on
`None` and a `ValueError` on a bad string both land in `Option.none`
(both are caught by the same `except` clause in the source). -/
def pyFloat : Value → Option ℚ
  | .none => Option.none
  | .str s => pyFloatOfString s
  | .int n => some (n : ℚ)
  | .float q => some q

/-- Embeds the Python substring test `needle in hay` on strings. -/
def pySubstr (needle : List Char) : List Char → Bool
  | [] => needle = []
  | c :: rest => needle.isPrefixOf (c :: rest) || pySubstr needle rest

/-! ## `evaluation/metrics.py` — `normalize_value` and `compare_values` -/

/-- Embeds `normalize_value` (`evaluation/metrics.py`, lines 124–138):
`str(value).lower().strip()`, collapse whitespace, replace each of the
fixed punctuation characters by a space, collapse whitespace again.
`None` short-circuits to the empty string. -/
def normalize_value (v : Value) : List Char :=
  match v with
  | .none => []
  | _ =>
    collapseWs (replacePunct (collapseWs (pyStrip (pyLower (pyStr v)))))

/-- The field types distinguished by `compare_values`. -/
inductive FieldType where
  | string : FieldType
  | number : FieldType
  | date : FieldType
deriving DecidableEq

/-- Embeds `compare_values` (`evaluation/metrics.py`, lines 141–189);
returns `(exact_match, partial_match)`. -/
def compare_values (predicted expected : Value) (field_type : FieldType) :
    Bool × Bool :=
  if expected = Value.none then (false, false)
  else if predicted = Value.none then (false, false)
  else
    let pred_norm := normalize_value predicted
    let exp_norm := normalize_value expected
    let exact := pred_norm = exp_norm
    let partialFlag :=
      if exact then false
      else if pySubstr pred_norm exp_norm ∨ pySubstr exp_norm pred_norm
        then true
      else if field_type = FieldType.number then
        match pyFloat predicted, pyFloat expected with
        | some pred_num, some exp_num =>
          ratAbs (pred_num - exp_num) / ratMax (ratAbs exp_num) 1 < mkRat 1 100
        | _, _ => false
      else false
    (exact, partialFlag)

/-! ## `evaluation/metrics.py` — `calculate_field_metrics` -/

/-- Embeds the `FieldMetrics` dataclass (`evaluation/metrics.py`,
lines 7–17).  Counters are embedded as integers so that their
non-negativity is a statement about the code, not about the type. -/
structure FieldMetrics where
  field_name : List Char
  true_positives : ℤ := 0
  false_positives : ℤ := 0
  false_negatives : ℤ := 0
  exact_matches : ℤ := 0
  partial_matches : ℤ := 0
  total_samples : ℤ := 0
deriving DecidableEq

/-- A Python dict of field values, embedded as an association list;
`d.get(k)` returns `None` both for a missing key and for an explicit
`None` value, which `compare_values` cannot distinguish. -/
def PyDict : Type := List (List Char × Value)

/-- Embeds `d.get(field)`. -/
def pyGet (d : PyDict) (k : List Char) : Value :=
  match List.lookup k d with
  | some v => v
  | Option.none => Value.none

/-- Embeds the field-type inference of `calculate_field_metrics`
(`evaluation/metrics.py`, lines 217–222): substring match of the field
name against number/date markers. -/
def inferFieldType (f : List Char) : FieldType :=
  if ["total", "amount", "price", "tva"].any
      (fun x => pySubstr x.toList f) then FieldType.number
  else if pySubstr "date".toList f then FieldType.date
  else FieldType.string

/-- Embeds the body of the inner `for field in fields` loop of
`calculate_field_metrics` for one `(pred, truth)` pair and one field:
increment `total_samples`, compare, and update the counters. -/
def metricsStep (f : List Char) (pred truth : PyDict)
    (m : FieldMetrics) : FieldMetrics :=
  let pred_value := pyGet pred f
  let truth_value := pyGet truth f
  let m := { m with total_samples := m.total_samples + 1 }
  let ft := inferFieldType f
  let ep := compare_values pred_value truth_value ft
  if truth_value ≠ Value.none then
    if pred_value ≠ Value.none then
      if ep.1 then
        { m with true_positives := m.true_positives + 1,
                 exact_matches := m.exact_matches + 1 }
      else if ep.2 then
        { m with true_positives := m.true_positives + 1,
                 partial_matches := m.partial_matches + 1 }
      else
        { m with false_positives := m.false_positives + 1 }
    else
      { m with false_negatives := m.false_negatives + 1 }
  else m

/-- The metrics dict, embedded as a total function from field names;
`calculate_field_metrics` only ever reads it at members of `fields`. -/
def MetricsMap : Type := List Char → FieldMetrics

/-- One iteration of the outer `for pred, truth in zip(...)` loop:
update the dict entry of every field in `fields`, in order (a field
name occurring twice in `fields` updates the same entry twice, exactly
as the Python dict of mutable `FieldMetrics` objects does). -/
def metricsPairStep (fields : List (List Char)) (pred truth : PyDict)
    (M : MetricsMap) : MetricsMap :=
  fields.foldl
    (fun M f => fun g => if g = f then metricsStep f pred truth (M f) else M g)
    M

/-- Embeds `calculate_field_metrics` (`evaluation/metrics.py`,
lines 192–239): initialise a zeroed entry per field, then fold the pair
step over `zip(predictions, ground_truth)`. -/
def calculate_field_metrics (predictions ground_truth : List PyDict)
    (fields : List (List Char)) : MetricsMap :=
  (predictions.zip ground_truth).foldl
    (fun M pt => metricsPairStep fields pt.1 pt.2 M)
    (fun f => { field_name := f })

/-! ## `ocr/tesseract_ocr.py` — `extract_from_multiple`

The single-page `extract_text` calls the external Tesseract engine, so
the aggregator is embedded as a function of the list of per-page
`OCRResult`s that `extract_text` returned, in page order. -/

/-- Embeds the `OCRResult` dataclass (`ocr/tesseract_ocr.py`,
lines 27–35). -/
structure OCRResult where
  text : List Char
  confidence : ℚ
  language : List Char
  word_count : ℕ
  processing_time_ms : Option ℚ := Option.none
deriving DecidableEq

/-- Embeds `separator.format(n=i)`: substitute the page number for the
placeholder `\x7bn\x7d` (the only placeholder appearing in the
source's separators). -/
def pyFormatN (n : ℕ) : List Char → List Char
  | '{' :: 'n' :: '}' :: rest => (toString n).toList ++ pyFormatN n rest
  | c :: rest => c :: pyFormatN n rest
  | [] => []

/-- Embeds `x or 0` on the optional per-page timing (`None` and `0.0`
both yield `0`). -/
def timeOr0 (t : Option ℚ) : ℚ :=
  match t with
  | some v => v
  | Option.none => 0

/-- The accumulating page loop of `extract_from_multiple`
(`ocr/tesseract_ocr.py`, lines 299–309): page index `i` counts from 1;
returns (joined text, Σ confidence·word_count, Σ word_count, Σ time). -/
def pagesLoop (sep : List Char) (i : ℕ) :
    List OCRResult → List Char × ℚ × ℕ × ℚ
  | [] => ([], 0, 0, 0)
  | r :: rest =>
    let sepTxt : List Char := if sep ≠ [] ∧ i > 1 then pyFormatN i sep else []
    let (t, c, w, tm) := pagesLoop sep (i + 1) rest
    (sepTxt ++ r.text ++ t,
     r.confidence * (r.word_count : ℚ) + c,
     r.word_count + w,
     timeOr0 r.processing_time_ms + tm)

/-- Embeds `extract_from_multiple` (`ocr/tesseract_ocr.py`,
lines 271–320) as a function of the per-page OCR results. -/
def extract_from_multiple (lang : List Char) (sep : List Char)
    (pages : List OCRResult) : OCRResult :=
  if pages = [] then
    { text := [], confidence := 0, language := lang, word_count := 0 }
  else
    let (t, c, w, tm) := pagesLoop sep 1 pages
    { text := t,
      confidence := if w > 0 then c / (w : ℚ) else 0,
      language := lang,
      word_count := w,
      processing_time_ms := some tm }

/-! ## `pipeline.py` — `ExtractionResult` and `process_file` -/

/-- Embeds the `ExtractionResult` dataclass (`pipeline.py`,
lines 28–36), generic over the structured-record type. -/
structure ExtractionResult (α : Type) where
  document_type : List Char
  data : Option α
  ocr_result : Option OCRResult
  success : Bool
  error_message : Option (List Char) := Option.none

/-- A JSON value, the target of `to_dict`. -/
inductive Json where
  | null : Json
  | str (s : List Char) : Json
  | num (q : ℚ) : Json
  | bool (b : Bool) : Json
  | obj (kvs : List (List Char × Json)) : Json
  | arr (elems : List Json) : Json

/-- Embeds `ExtractionResult.to_dict` (`pipeline.py`, lines 38–50);
`display` is the record's `to_dict_display` method. -/
def ExtractionResult.to_dict {α : Type} (display : α → Json)
    (r : ExtractionResult α) : Json :=
  Json.obj
    [("document_type".toList, Json.str r.document_type),
     ("success".toList, Json.bool r.success),
     ("error_message".toList,
       match r.error_message with
       | some e => Json.str e
       | Option.none => Json.null),
     ("data".toList,
       match r.data with
       | some d => display d
       | Option.none => Json.null),
     ("ocr".toList, Json.obj
       [("word_count".toList,
         Json.num (match r.ocr_result with
           | some o => (o.word_count : ℚ)
           | Option.none => 0)),
        ("confidence".toList,
         Json.num (match r.ocr_result with
           | some o => o.confidence
           | Option.none => 0)),
        ("processing_time_ms".toList,
         match r.ocr_result with
         | some o =>
           (match o.processing_time_ms with
            | some t => Json.num t
            | Option.none => Json.null)
         | Option.none => Json.num 0)])]

/-- Embeds `document_type or "unknown"` from the `except` branch of
`process_file`: the local variable may be unset (`None`) or an empty
(falsy) string. -/
def docTypeOrUnknown (dt : Option (List Char)) : List Char :=
  match dt with
  | some t => if t ≠ [] then t else "unknown".toList
  | Option.none => "unknown".toList

/-- The failed `ExtractionResult` built in the `except` branch of
`process_file` (`pipeline.py`, lines 179–187). -/
def failResult {α : Type} (dt : Option (List Char)) (e : List Char) :
    ExtractionResult α :=
  { document_type := docTypeOrUnknown dt,
    data := Option.none,
    ocr_result := Option.none,
    success := false,
    error_message := some e }

/-- Embeds `ExtractionPipeline.process_file` (`pipeline.py`,
lines 134–187).  The stages are passed as oracles: `preprocess` and
`extractText` may raise (carrying `str(e)`), `classify` never raises
(`DocumentClassifier.classify` catches internally), and
`extractStructured` may raise (`ExtractionError` or the unsupported-type
`ValueError`).  Any raise lands in the single `except` branch, whose
`document_type` is the current value of the local variable — updated by
the classification stage if that stage ran.

First, the structured-extraction tail of `process_file`: `dt` is the value
of the `document_type` local variable after the optional classification
stage, and is the type reported by the `except` branch if structured
extraction raises. -/
def processTail {α : Type}
    (extractStructured : List Char → List Char → Except (List Char) α)
    (ocr : OCRResult) (dt : List Char) : ExtractionResult α :=
  match extractStructured ocr.text dt with
  | Except.error e => failResult (some dt) e
  | Except.ok data =>
    { document_type := dt,
      data := some data,
      ocr_result := some ocr,
      success := true }

def process_file {α Imgs : Type}
    (fileExists : Bool) (path : List Char)
    (preprocess : Except (List Char) Imgs)
    (extractText : Imgs → Except (List Char) OCRResult)
    (classify : List Char → List Char)
    (extractStructured : List Char → List Char → Except (List Char) α)
    (document_type : Option (List Char)) : ExtractionResult α :=
  if fileExists = false then
    failResult document_type ("Fichier non trouvé: ".toList ++ path)
  else
    match preprocess with
    | Except.error e => failResult document_type e
    | Except.ok images =>
      match extractText images with
      | Except.error e => failResult document_type e
      | Except.ok ocr =>
        processTail extractStructured ocr
          (match document_type with
           | Option.none => classify ocr.text
           | some t => t)

/-! ## `preprocessing/image_enhancer.py` — `_deskew_image`

Canny/Hough line detection and `np.arctan2` are external numeric
collaborators; the embedding takes the detected line segments and an
angle oracle (`np.degrees(np.arctan2(dy, dx))`, a float and hence a
rational) as parameters and embeds the control flow built on them. -/

/-- A Hough line segment `(x1, y1, x2, y2)`. -/
structure LineSeg where
  x1 : ℤ
  y1 : ℤ
  x2 : ℤ
  y2 : ℤ

/-- Insert into a sorted list of rationals (kernel-evaluable sorting
for the median). -/
def insertSorted (x : ℚ) : List ℚ → List ℚ
  | [] => [x]
  | y :: rest => if x ≤ y then x :: y :: rest else y :: insertSorted x rest

/-- Sort a list of rationals ascending (insertion sort). -/
def sortQ (l : List ℚ) : List ℚ :=
  l.foldr insertSorted []

/-- Embeds `np.median` on a list of rationals: sort, take the middle
element (odd length) or the mean of the two middle elements (even
length). -/
def npMedian (l : List ℚ) : ℚ :=
  let s := sortQ l
  let n := s.length
  if n % 2 = 1 then s.getD (n / 2) 0
  else (s.getD (n / 2 - 1) 0 + s.getD (n / 2) 0) / 2

/-- The candidate angles kept by `_deskew_image`
(`image_enhancer.py`, lines 111–118): for each segment with
`x2 - x1 != 0`, the oracle angle, kept when its magnitude is `< 45`. -/
def keptAngles (atan2deg : ℤ → ℤ → ℚ) (lines : List LineSeg) : List ℚ :=
  lines.filterMap (fun l =>
    if l.x2 - l.x1 ≠ 0 then
      let angle := atan2deg (l.y2 - l.y1) (l.x2 - l.x1)
      if ratAbs angle < 45 then some angle else Option.none
    else Option.none)

/-- The two `cv2.warpAffine` argument tokens fixed by `_deskew_image`. -/
inductive BorderMode where
  | replicate : BorderMode
  | constant : BorderMode
deriving DecidableEq

/-- The observable outcome of `_deskew_image`: either the input image
unchanged, or one `cv2.warpAffine` call with the rotation matrix
`cv2.getRotationMatrix2D(center, matrixAngle, 1.0)`. -/
inductive DeskewOutcome where
  | unchanged : DeskewOutcome
  | rotated (center : ℤ × ℤ) (matrixAngle : ℚ) (border : BorderMode) :
      DeskewOutcome
deriving DecidableEq

/-- Embeds `ImageEnhancer._deskew_image` (`image_enhancer.py`,
lines 82–148); `lines` is `None` or the detected segments, `w`/`h` the
image dimensions. -/
def deskew_image (atan2deg : ℤ → ℤ → ℚ)
    (lines : Option (List LineSeg)) (w h : ℕ) : DeskewOutcome :=
  match lines with
  | Option.none => DeskewOutcome.unchanged
  | some ls =>
    if ls.length = 0 then DeskewOutcome.unchanged
    else
      let angles := keptAngles atan2deg ls
      if angles = [] then DeskewOutcome.unchanged
      else
        let median_angle := npMedian angles
        if ratAbs median_angle < mkRat 1 2 then DeskewOutcome.unchanged
        else
          DeskewOutcome.rotated ((w : ℤ) / 2, (h : ℤ) / 2) median_angle
            BorderMode.replicate

/-- Modelled from the documented semantics of the external
`cv2.getRotationMatrix2D(center, θ, 1.0)` + `cv2.warpAffine` pair: the
matrix is `[[cos θ, sin θ, ·], [-sin θ, cos θ, ·]]`, which maps a
segment whose `arctan2(dy, dx)` angle is `φ` (in the image's y-down
pixel frame, the frame in which `_deskew_image` measures its angles) to
a segment of angle `φ - θ`; i.e. the call rotates the image content by
`-θ` in the angle-measurement frame.  `unchanged` rotates by `0`. -/
def contentRotationDeg : DeskewOutcome → ℚ
  | DeskewOutcome.unchanged => 0
  | DeskewOutcome.rotated _ a _ => -a

/-! ## `llm/mock_client.py` — the simulation backend

The regex helpers (`_extract_text_from_prompt`, `_find_pattern`,
`_find_date`, `_find_amount`) delegate to the external `re` module;
they are pure functions of the text and are passed as a `Finders`
oracle.  The process RNG (`random.randint` / `random.uniform`) and the
clock (`date.today()`) are the remaining inputs; both are global state
shared between calls, so they are explicit parameters here. -/

/-- The regex-based helper methods of `MockLLMClient`, as pure
functions (the `re` module is deterministic). -/
structure Finders where
  extractTextFromPrompt : List Char → List Char
  findInvoiceNumber : List Char → Option (List Char)
  findDate : List Char → Option (List Char)
  findSupplierName : List Char → Option (List Char)
  findAmount : List Char → List String → Option ℚ

/-- The values `date.today()` contributes to a response: today, 30 days
later (`due_date`), 365 days later (`end_date`), in ISO form. -/
structure TodayDates where
  iso : List Char
  isoPlus30 : List Char
  isoPlus365 : List Char
deriving DecidableEq

/-- The process RNG, as a stream of draws indexed by how many draws the
call has already made. -/
structure Rng where
  draw : ℕ → ℕ

/-- Embeds `random.randint(a, b)` at draw index `k`: some value in
`[a, b]` determined by the RNG state. -/
def pyRandint (a b : ℤ) (g : Rng) (k : ℕ) : ℤ :=
  a + (g.draw k : ℤ) % (b - a + 1)

/-- Embeds `round(random.uniform(a, b), 2)` at draw index `k`: some
two-decimal value in `[a, b]` determined by the RNG state. -/
def pyUniform2 (a b : ℚ) (g : Rng) (k : ℕ) : ℚ :=
  a + ((g.draw k % 200 : ℕ) : ℚ) / 200 * (b - a)

/-- Embeds Python `x or y` on an optional string (`None` and `""` are
falsy). -/
def orStr (x : Option (List Char)) (y : List Char) : List Char :=
  match x with
  | some s => if s ≠ [] then s else y
  | Option.none => y

/-- Embeds Python `x or y` on an optional float (`None` and `0.0` are
falsy). -/
def orNum (x : Option ℚ) (y : ℚ) : ℚ :=
  match x with
  | some v => if v ≠ 0 then v else y
  | Option.none => y

/-- Truthiness of an optional float (`if total_ttc and total_ht ...`). -/
def truthyNum (x : Option ℚ) : Bool :=
  match x with
  | some v => v ≠ 0
  | Option.none => false

/-- Truthiness of an optional string. -/
def truthyStr (x : Option (List Char)) : Bool :=
  match x with
  | some s => s ≠ []
  | Option.none => false

/-- Embeds Python `round(x, 2)` (round half to even at two decimals). -/
def pyRound2 (x : ℚ) : ℚ :=
  let y := x * 100
  let f : ℤ := ratFloor y
  let r : ℚ := y - f
  let n : ℤ :=
    if r < mkRat 1 2 then f
    else if r > mkRat 1 2 then f + 1
    else if f % 2 = 0 then f else f + 1
  (n : ℚ) / 100

/-- A line item of the mock invoice response
(`mock_client.py`, lines 175–183). -/
structure MockLineItem where
  description : List Char
  quantity : ℤ
  unit_price : ℚ
  total_ht : ℚ
  tva_rate : ℚ
deriving DecidableEq

/-- The JSON object produced by `_generate_invoice_response`, field for
field (`mock_client.py`, lines 161–185). -/
structure MockInvoiceResponse where
  invoice_number : List Char
  invoice_date : List Char
  due_date : Option (List Char)
  supplier_name : List Char
  supplier_address : List Char
  supplier_siret : List Char
  supplier_vat_number : List Char
  client_name : List Char
  client_address : List Char
  client_siret : Option (List Char)
  total_ht : ℚ
  total_tva : Option ℚ
  total_ttc : ℚ
  line_items : List MockLineItem
  confidence_score : ℚ
deriving DecidableEq

/-- Embeds `MockLLMClient._generate_invoice_response`
(`mock_client.py`, lines 126–187).  RNG draws happen in dict-literal
order: `invoice_number` (if its pattern was not found), then
`total_ht`, then `total_ttc` — exactly when the corresponding searched
value is falsy. -/
def generate_invoice_response (F : Finders) (today : TodayDates)
    (g : Rng) (prompt : List Char) : MockInvoiceResponse :=
  let text := F.extractTextFromPrompt prompt
  let invoice_number := F.findInvoiceNumber text
  let invoice_date := F.findDate text
  let supplier_name := F.findSupplierName text
  let total_ttc := F.findAmount text ["total ttc", "ttc", "net à payer", "total"]
  let total_ht := F.findAmount text ["total ht", "ht", "hors taxes"]
  let total_tva0 := F.findAmount text ["tva", "total tva"]
  let total_tva : Option ℚ :=
    if truthyNum total_ttc ∧ truthyNum total_ht ∧ ¬ truthyNum total_tva0 then
      some (pyRound2 ((total_ttc.getD 0) - (total_ht.getD 0)))
    else total_tva0
  let found_fields : ℕ :=
    (if invoice_number.isSome then 1 else 0) +
    (if invoice_date.isSome then 1 else 0) +
    (if total_ttc.isSome then 1 else 0) +
    (if supplier_name.isSome then 1 else 0)
  let confidence : ℚ := ratMin (mkRat 1 2 + (found_fields : ℚ) * mkRat 1 10) (mkRat 19 20)
  let k1 : ℕ := if truthyStr invoice_number then 0 else 1
  let k2 : ℕ := if truthyNum total_ht then k1 else k1 + 1
  { invoice_number :=
      orStr invoice_number
        ("MOCK-".toList ++ (toString (pyRandint 1000 9999 g 0)).toList),
    invoice_date := orStr invoice_date today.iso,
    due_date := if truthyStr invoice_date then some today.isoPlus30
      else Option.none,
    supplier_name := orStr supplier_name "Fournisseur Simulé SARL".toList,
    supplier_address := "123 Rue de la Simulation, 75001 Paris".toList,
    supplier_siret := "12345678901234".toList,
    supplier_vat_number := "FR12345678901".toList,
    client_name := "Client Exemple".toList,
    client_address := "456 Avenue du Test, 69001 Lyon".toList,
    client_siret := Option.none,
    total_ht := orNum total_ht (pyUniform2 100 5000 g k1),
    total_tva := total_tva,
    total_ttc := orNum total_ttc (pyUniform2 120 6000 g k2),
    line_items :=
      [{ description := "Service de démonstration".toList,
         quantity := 1,
         unit_price := orNum total_ht 1000,
         total_ht := orNum total_ht 1000,
         tva_rate := 20 }],
    confidence_score := confidence }

/-- A party of the mock contract response. -/
structure MockParty where
  name : List Char
  role : List Char
  address : List Char
  siret : List Char
  representative : List Char
deriving DecidableEq

/-- A key clause of the mock contract response. -/
structure MockClause where
  title : List Char
  content : List Char
  importance : List Char
deriving DecidableEq

/-- The JSON object produced by `_generate_contract_response`, field
for field (`mock_client.py`, lines 211–254). -/
structure MockContractResponse where
  contract_type : List Char
  contract_number : List Char
  title : List Char
  parties : List MockParty
  signature_date : List Char
  effective_date : List Char
  end_date : List Char
  duration : List Char
  total_amount : ℚ
  payment_terms : List Char
  currency : List Char
  key_clauses : List MockClause
  termination_conditions : List Char
  renewal_terms : List Char
  signatures : List (List Char)
  confidence_score : ℚ
deriving DecidableEq

/-- Embeds the keyword test
`any(w in text.lower() for w in ws)` of the contract-type detection. -/
def anyKeyword (lowered : List Char) (ws : List String) : Bool :=
  ws.any (fun w => pySubstr w.toList lowered)

/-- Embeds `MockLLMClient._generate_contract_response`
(`mock_client.py`, lines 189–256).  `contract_number` always consumes
two RNG draws; `total_amount` consumes a third when no amount was found
in the text. -/
def generate_contract_response (F : Finders) (today : TodayDates)
    (g : Rng) (prompt : List Char) : MockContractResponse :=
  let text := F.extractTextFromPrompt prompt
  let lowered := pyLower text
  let contract_type : List Char :=
    if anyKeyword lowered ["emploi", "travail", "salarié", "employeur"] then
      "employment".toList
    else if anyKeyword lowered ["prestation", "service", "mission"] then
      "service".toList
    else if anyKeyword lowered ["bail", "location", "loyer", "locataire"] then
      "lease".toList
    else if anyKeyword lowered ["vente", "achat", "acquéreur"] then
      "sale".toList
    else if anyKeyword lowered ["confidentialité", "nda", "non-disclosure"] then
      "nda".toList
    else "other".toList
  let signature_date := F.findDate text
  let total_amount := F.findAmount text ["montant", "prix", "rémunération", "loyer"]
  let confidence : ℚ :=
    if truthyStr signature_date ∨ truthyNum total_amount then mkRat 3 4 else mkRat 1 2
  { contract_type := contract_type,
    contract_number :=
      "CTR-".toList ++ (toString (pyRandint 2024 2025 g 0)).toList ++
        "-".toList ++ (toString (pyRandint 100 999 g 1)).toList,
    title := "Contrat de ".toList ++ contract_type,
    parties :=
      [{ name := "Société ABC".toList,
         role := "Prestataire".toList,
         address := "10 Rue du Commerce, 75001 Paris".toList,
         siret := "98765432109876".toList,
         representative := "Jean Dupont".toList },
       { name := "Entreprise XYZ".toList,
         role := "Client".toList,
         address := "20 Avenue des Affaires, 69002 Lyon".toList,
         siret := "12345678901234".toList,
         representative := "Marie Martin".toList }],
    signature_date := orStr signature_date today.iso,
    effective_date := orStr signature_date today.iso,
    end_date := today.isoPlus365,
    duration := "12 mois".toList,
    total_amount := orNum total_amount (pyUniform2 10000 100000 g 2),
    payment_terms := "30 jours fin de mois".toList,
    currency := "EUR".toList,
    key_clauses :=
      [{ title := "Confidentialité".toList,
         content := "Les parties s'engagent à maintenir la confidentialité des informations échangées".toList,
         importance := "high".toList },
       { title := "Résiliation".toList,
         content := "Le contrat peut être résilié avec un préavis de 3 mois".toList,
         importance := "high".toList }],
    termination_conditions := "Préavis de 3 mois".toList,
    renewal_terms := "Reconduction tacite".toList,
    signatures := ["Jean Dupont".toList, "Marie Martin".toList],
    confidence_score := confidence }

/-! ## Derived definitions used by the statements -/

/-- The invariant of one `FieldMetrics` entry: all six counters are
non-negative, exact and partial matches partition the true positives,
and at most one of tp/fp/fn is incremented per counted sample. -/
def MetricsInv (m : FieldMetrics) : Prop :=
  0 ≤ m.true_positives ∧ 0 ≤ m.false_positives ∧ 0 ≤ m.false_negatives ∧
  0 ≤ m.exact_matches ∧ 0 ≤ m.partial_matches ∧ 0 ≤ m.total_samples ∧
  m.exact_matches + m.partial_matches = m.true_positives ∧
  m.true_positives + m.false_positives + m.false_negatives ≤ m.total_samples

/-- Closed form of the page concatenation from page number `n` on: the
formatted separator precedes every listed page. -/
def sepJoin (sep : List Char) : ℕ → List OCRResult → List Char
  | _, [] => []
  | n, p :: ps => pyFormatN n sep ++ p.text ++ sepJoin sep (n + 1) ps

/-- The fields of a mock invoice response that are *not* synthesized
from the RNG: everything except `invoice_number`, `total_ht` and
`total_ttc` (those three fall back to random placeholders when the
corresponding value is not found in the text). -/
def invoiceStableProj (r : MockInvoiceResponse) :=
  (r.invoice_date, r.due_date, r.supplier_name, r.supplier_address,
   r.supplier_siret, r.supplier_vat_number, r.client_name,
   r.client_address, r.client_siret, r.total_tva, r.line_items,
   r.confidence_score)

/-- The fields of a mock contract response that are *not* synthesized
from the RNG: everything except `contract_number` (always two fresh
draws) and `total_amount` (random when no amount is found). -/
def contractStableProj (r : MockContractResponse) :=
  (r.contract_type, r.title, r.parties, r.signature_date,
   r.effective_date, r.end_date, r.duration, r.payment_terms,
   r.currency, r.key_clauses, r.termination_conditions,
   r.renewal_terms, r.signatures, r.confidence_score)

/-- Finders for a text in which none of the mock client's regex
patterns matches (e.g. the text `"contrat"`). -/
def noMatchFinders : Finders :=
  { extractTextFromPrompt := fun t => t,
    findInvoiceNumber := fun _ => Option.none,
    findDate := fun _ => Option.none,
    findSupplierName := fun _ => Option.none,
    findAmount := fun _ _ => Option.none }

/-! ## Theorems -/

theorem ratAbs_eq_abs (q : ℚ) : ratAbs q = |q| := by
  unfold ratAbs
  rcases lt_or_le q 0 with h | h
  · rw [if_pos h, abs_of_neg h]
  · rw [if_neg (not_lt.mpr h), abs_of_nonneg h]

theorem ratMax_eq_max (a b : ℚ) : ratMax a b = max a b := by
  unfold ratMax
  rcases le_or_lt a b with h | h
  · rw [if_pos h, max_eq_right h]
  · rw [if_neg (not_le.mpr h), max_eq_left h.le]

theorem ratMin_eq_min (a b : ℚ) : ratMin a b = min a b := by
  unfold ratMin
  rcases le_or_lt a b with h | h
  · rw [if_pos h, min_eq_left h]
  · rw [if_neg (not_le.mpr h), min_eq_right h.le]

/-- C1: For every processed document, the returned `ExtractionResult`
satisfies: `success = true` iff the record and the OCR summary are both
non-null and `error_message` is null, and `success = false` iff record
and OCR summary are both null and `error_message` is non-null — so any
stage failure after preprocessing (including structured extraction)
discards the already-computed OCR result, which never accompanies an
error.  Quantified over every outcome of every stage oracle. -/
theorem process_file_success_iff {α Imgs : Type}
    (fileExists : Bool) (path : List Char)
    (preprocess : Except (List Char) Imgs)
    (extractText : Imgs → Except (List Char) OCRResult)
    (classify : List Char → List Char)
    (extractStructured : List Char → List Char → Except (List Char) α)
    (document_type : Option (List Char)) :
    ((process_file fileExists path preprocess extractText classify
        extractStructured document_type).success = true ↔
      ((process_file fileExists path preprocess extractText classify
          extractStructured document_type).data.isSome ∧
       (process_file fileExists path preprocess extractText classify
          extractStructured document_type).ocr_result.isSome ∧
       (process_file fileExists path preprocess extractText classify
          extractStructured document_type).error_message = Option.none)) ∧
    ((process_file fileExists path preprocess extractText classify
        extractStructured document_type).success = false ↔
      ((process_file fileExists path preprocess extractText classify
          extractStructured document_type).data = Option.none ∧
       (process_file fileExists path preprocess extractText classify
          extractStructured document_type).ocr_result = Option.none ∧
       (process_file fileExists path preprocess extractText classify
          extractStructured document_type).error_message.isSome)) := by
  unfold process_file
  split
  · simp [failResult]
  · split
    · simp [failResult]
    · split
      · simp [failResult]
      · unfold processTail
        split <;> simp [failResult]

/-- C10: For a failed `ExtractionResult` (data and ocr_result both
null), `to_dict` serializes `"data"` as null but `"ocr"` as an object
with `word_count` 0, `confidence` 0 and `processing_time_ms` 0, not as
null. -/
theorem to_dict_failed_shape {α : Type} (display : α → Json)
    (dt : List Char) (succ : Bool) (err : Option (List Char)) :
    ∃ kvs, ExtractionResult.to_dict display
        { document_type := dt, data := Option.none,
          ocr_result := Option.none, success := succ,
          error_message := err } = Json.obj kvs ∧
      List.lookup "data".toList kvs = some Json.null ∧
      List.lookup "ocr".toList kvs = some (Json.obj
        [("word_count".toList, Json.num 0),
         ("confidence".toList, Json.num 0),
         ("processing_time_ms".toList, Json.num 0)]) := by
  refine ⟨_, rfl, ?_, ?_⟩ <;> rfl

/-- C3 counterexample: `compare_values("1200,00", 1200.0, "number")`
does **not** return `exact = true` — the claim fails on the code. -/
theorem compare_values_1200_not_exact :
    (compare_values (Value.str "1200,00".toList) (Value.float 1200)
      FieldType.number).1 = false := by decide

/-- C3 amended: `compare_values("1200,00", 1200.0, "number")` returns
`(exact, partial) = (false, true)`: normalization replaces both `,` and
`.` by spaces, giving `"1200 00"` vs `"1200 0"`, which are unequal but
in a substring relation. -/
theorem compare_values_1200_partial :
    compare_values (Value.str "1200,00".toList) (Value.float 1200)
      FieldType.number = (false, true) := by decide

end DocExtract

namespace DocExtract

theorem mkRat_1_100 : mkRat 1 100 = (1 / 100 : ℚ) := by
  rw [Rat.mkRat_eq_div]; norm_num

/-- Core characterisation of the number-typed partial flag, shared by
the C4 theorem and its counterexample. -/
theorem number_partial_flag_iff (p e : Value)
    (hp : p ≠ Value.none) (he : e ≠ Value.none)
    (hne : normalize_value p ≠ normalize_value e)
    (hs1 : pySubstr (normalize_value p) (normalize_value e) = false)
    (hs2 : pySubstr (normalize_value e) (normalize_value p) = false) :
    (compare_values p e FieldType.number).2 = true ↔
      ∃ a b, pyFloat p = some a ∧ pyFloat e = some b ∧
        |a - b| / max |b| 1 < 1 / 100 := by
  unfold compare_values
  rw [if_neg he, if_neg hp]
  simp only [hne, if_false, hs1, hs2, Bool.false_eq_true, or_self,
    if_true, reduceIte]
  rcases hfp : pyFloat p with _ | a
  · simp
  · rcases hfe : pyFloat e with _ | b
    · simp
    · simp only [mkRat_1_100, ratAbs_eq_abs, ratMax_eq_max,
        decide_eq_true_eq]
      constructor
      · intro h; exact ⟨a, b, rfl, rfl, h⟩
      · rintro ⟨a', b', ha', hb', h⟩
        rw [Option.some_inj] at ha' hb'
        rw [ha', hb']; exact h

/-- C4 amended: for non-null number-typed values whose normalized forms
are unequal and not in a substring relation, `compare_values` returns
`partial = true` exactly when both values parse as numbers and
`|predicted - expected| / max(|expected|, 1) < 1/100` — the denominator
is `max(|expected|, 1)`, not `|expected|`. -/
theorem compare_values_number_partial_iff (p e : Value)
    (hp : p ≠ Value.none) (he : e ≠ Value.none)
    (hne : normalize_value p ≠ normalize_value e)
    (hs1 : pySubstr (normalize_value p) (normalize_value e) = false)
    (hs2 : pySubstr (normalize_value e) (normalize_value p) = false) :
    (compare_values p e FieldType.number).2 = true ↔
      ∃ a b, pyFloat p = some a ∧ pyFloat e = some b ∧
        |a - b| / max |b| 1 < 1 / 100 :=
  number_partial_flag_iff p e hp he hne hs1 hs2

/-- Witness for the amended C4 theorem at predicted `"102"`, expected
`"101.5"`. -/
theorem compare_values_number_partial_iff_witness :
    (compare_values (Value.str "102".toList) (Value.str "101.5".toList)
        FieldType.number).2 = true ↔
      ∃ a b, pyFloat (Value.str "102".toList) = some a ∧
        pyFloat (Value.str "101.5".toList) = some b ∧
        |a - b| / max |b| 1 < 1 / 100 :=
  compare_values_number_partial_iff _ _ (by decide) (by decide)
    (by decide) (by decide) (by decide)

end DocExtract

namespace DocExtract

/-- C4 counterexample: predicted `"0.492"` against expected `"0.5"`
(number field) is in the claim's scope — non-null, normalized forms
unequal, no substring relation — yet `compare_values` returns
`partial = true` although the relative difference against `|expected|`
is `1.6% ≥ 1%`: the code divides by `max(|expected|, 1)`, not by
`|expected|`. -/
theorem compare_values_reldiff_counterexample :
    normalize_value (Value.str "0.492".toList) ≠
      normalize_value (Value.str "0.5".toList) ∧
    pySubstr (normalize_value (Value.str "0.492".toList))
      (normalize_value (Value.str "0.5".toList)) = false ∧
    pySubstr (normalize_value (Value.str "0.5".toList))
      (normalize_value (Value.str "0.492".toList)) = false ∧
    pyFloat (Value.str "0.492".toList) = some (123 / 250 : ℚ) ∧
    pyFloat (Value.str "0.5".toList) = some (1 / 2 : ℚ) ∧
    (compare_values (Value.str "0.492".toList) (Value.str "0.5".toList)
      FieldType.number).2 = true ∧
    ¬ (|(123 / 250 : ℚ) - 1 / 2| / |(1 / 2 : ℚ)| < 1 / 100) := by
  have h492 : pyFloat (Value.str "0.492".toList) = some (123 / 250 : ℚ) := by
    have : pyFloat (Value.str "0.492".toList) =
        some (1 * (((0:ℕ) : ℚ) + ((492:ℕ) : ℚ) / ((10 : ℚ) ^ (3:ℕ)))) := rfl
    rw [this]; norm_num
  have h5 : pyFloat (Value.str "0.5".toList) = some (1 / 2 : ℚ) := by
    have : pyFloat (Value.str "0.5".toList) =
        some (1 * (((0:ℕ) : ℚ) + ((5:ℕ) : ℚ) / ((10 : ℚ) ^ (1:ℕ)))) := rfl
    rw [this]; norm_num
  refine ⟨by decide, by decide, by decide, h492, h5, ?_, by norm_num [abs]⟩
  rw [number_partial_flag_iff _ _ (by decide) (by decide)
    (by decide) (by decide) (by decide)]
  exact ⟨123 / 250, 1 / 2, h492, h5, by norm_num [abs]⟩

end DocExtract

namespace DocExtract

theorem metricsStep_inv (f : List Char) (pred truth : PyDict)
    (m : FieldMetrics) (h : MetricsInv m) :
    MetricsInv (metricsStep f pred truth m) := by
  unfold MetricsInv at h ⊢
  unfold metricsStep
  dsimp only
  split
  · split
    · split
      · simp only []; omega
      · split
        · simp only []; omega
        · simp only []; omega
    · simp only []; omega
  · simp only []; omega

theorem metricsStep_total (f : List Char) (pred truth : PyDict)
    (m : FieldMetrics) :
    (metricsStep f pred truth m).total_samples = m.total_samples + 1 := by
  unfold metricsStep
  dsimp only
  split
  · split
    · split
      · rfl
      · split <;> rfl
    · rfl
  · rfl

theorem metricsPairStep_inv (fields : List (List Char))
    (pred truth : PyDict) (M : MetricsMap)
    (h : ∀ g, MetricsInv (M g)) :
    ∀ g, MetricsInv (metricsPairStep fields pred truth M g) := by
  induction fields generalizing M with
  | nil => exact h
  | cons f fs ih =>
    intro g
    unfold metricsPairStep at ih ⊢
    rw [List.foldl_cons]
    refine ih _ (fun g' => ?_) g
    by_cases hg : g' = f
    · simp only [hg, if_pos rfl]
      exact metricsStep_inv f pred truth (M f) (h f)
    · simp only [if_neg hg]
      exact h g'

theorem foldPairs_inv (fields : List (List Char))
    (l : List (PyDict × PyDict)) (M : MetricsMap)
    (h : ∀ g, MetricsInv (M g)) :
    ∀ g, MetricsInv
      ((l.foldl (fun M pt => metricsPairStep fields pt.1 pt.2 M) M) g) := by
  induction l generalizing M with
  | nil => exact h
  | cons pt rest ih =>
    rw [List.foldl_cons]
    exact ih _ (metricsPairStep_inv fields pt.1 pt.2 M h)

/-- C7: every `FieldMetrics` value produced by `calculate_field_metrics`
has six non-negative counters, `exact_matches + partial_matches =
true_positives`, and `true_positives + false_positives +
false_negatives ≤ total_samples`, for any prediction and ground-truth
lists and any field list. -/
theorem calculate_field_metrics_invariants
    (predictions ground_truth : List PyDict)
    (fields : List (List Char)) (f : List Char) :
    0 ≤ (calculate_field_metrics predictions ground_truth fields f).true_positives ∧
    0 ≤ (calculate_field_metrics predictions ground_truth fields f).false_positives ∧
    0 ≤ (calculate_field_metrics predictions ground_truth fields f).false_negatives ∧
    0 ≤ (calculate_field_metrics predictions ground_truth fields f).exact_matches ∧
    0 ≤ (calculate_field_metrics predictions ground_truth fields f).partial_matches ∧
    0 ≤ (calculate_field_metrics predictions ground_truth fields f).total_samples ∧
    (calculate_field_metrics predictions ground_truth fields f).exact_matches +
      (calculate_field_metrics predictions ground_truth fields f).partial_matches =
      (calculate_field_metrics predictions ground_truth fields f).true_positives ∧
    (calculate_field_metrics predictions ground_truth fields f).true_positives +
      (calculate_field_metrics predictions ground_truth fields f).false_positives +
      (calculate_field_metrics predictions ground_truth fields f).false_negatives ≤
      (calculate_field_metrics predictions ground_truth fields f).total_samples := by
  have h0 : ∀ g, MetricsInv ({ field_name := g } : FieldMetrics) := by
    intro g
    unfold MetricsInv
    refine ⟨le_refl 0, le_refl 0, le_refl 0, le_refl 0, le_refl 0,
      le_refl 0, rfl, le_refl 0⟩
  exact foldPairs_inv fields (predictions.zip ground_truth) _ h0 f

end DocExtract

namespace DocExtract

theorem metricsPairStep_count_zero (fields : List (List Char))
    (pred truth : PyDict) (M : MetricsMap) (f : List Char)
    (h : fields.count f = 0) :
    metricsPairStep fields pred truth M f = M f := by
  induction fields generalizing M with
  | nil => rfl
  | cons a fs ih =>
    rw [List.count_cons] at h
    have ha : ¬ (f = a) := by
      intro hfa
      simp [hfa] at h
    have hfs : fs.count f = 0 := by
      rcases Nat.eq_zero_of_add_eq_zero_left h with h'
      omega
    unfold metricsPairStep at ih ⊢
    rw [List.foldl_cons]
    rw [ih _ hfs]
    simp [ha]

theorem metricsPairStep_count_one (fields : List (List Char))
    (pred truth : PyDict) (M : MetricsMap) (f : List Char)
    (h : fields.count f = 1) :
    metricsPairStep fields pred truth M f =
      metricsStep f pred truth (M f) := by
  induction fields generalizing M with
  | nil => simp at h
  | cons a fs ih =>
    rw [List.count_cons] at h
    unfold metricsPairStep at ih ⊢
    rw [List.foldl_cons]
    by_cases hfa : f = a
    · subst hfa
      have hfs : fs.count f = 0 := by
        simp at h
        omega
      have := metricsPairStep_count_zero fs pred truth
        (fun g => if g = f then metricsStep f pred truth (M f) else M g) f hfs
      unfold metricsPairStep at this
      rw [this]
      simp
    · have hfs : fs.count f = 1 := by
        simp [beq_iff_eq, Ne.symm hfa] at h
        exact h
      rw [ih _ hfs]
      simp [hfa]

theorem foldPairs_total (fields : List (List Char)) (f : List Char)
    (hcount : fields.count f = 1) (l : List (PyDict × PyDict)) :
    ∀ M : MetricsMap,
      ((l.foldl (fun M pt => metricsPairStep fields pt.1 pt.2 M) M) f).total_samples =
        (M f).total_samples + l.length := by
  induction l with
  | nil => intro M; simp
  | cons pt rest ih =>
    intro M
    rw [List.foldl_cons, ih]
    rw [metricsPairStep_count_one fields pt.1 pt.2 M f hcount]
    rw [metricsStep_total]
    simp [List.length_cons]
    omega

theorem zip_take_min {α β : Type} (l1 : List α) (l2 : List β) :
    l1.zip l2 = (l1.take (min l1.length l2.length)).zip
      (l2.take (min l1.length l2.length)) := by
  induction l1 generalizing l2 with
  | nil => simp
  | cons a as ih =>
    cases l2 with
    | nil => simp
    | cons b bs =>
      simp only [List.length_cons, Nat.succ_min_succ, List.take_succ_cons,
        List.zip_cons_cons]
      rw [← ih bs]

/-- C9 counterexample: with predictions of length 2, ground truth of
length 1 and the duplicated field list `["a", "a"]`, the entry for
`"a"` gets `total_samples = 2`, not `min(2, 1) = 1` — each occurrence
of the field name in the inner loop increments the same dict entry. -/
theorem calculate_field_metrics_dup_counterexample :
    ([[], []] : List PyDict).length ≠ ([[]] : List PyDict).length ∧
    min ([[], []] : List PyDict).length ([[]] : List PyDict).length = 1 ∧
    (calculate_field_metrics [[], []] [[]]
      ["a".toList, "a".toList] "a".toList).total_samples = 2 := by
  refine ⟨by decide, by decide, by decide⟩

/-- C9 amended: when `calculate_field_metrics` is called with
prediction and ground-truth lists of different (or equal) lengths, only
the first `min(len(predictions), len(ground_truth))` pairs are
evaluated: for a field name occurring exactly once in the field list,
`total_samples` equals that minimum, and the whole result only depends
on the first `min` entries of either list. -/
theorem calculate_field_metrics_truncates
    (predictions ground_truth : List PyDict)
    (fields : List (List Char)) (f : List Char)
    (h : fields.count f = 1) :
    (calculate_field_metrics predictions ground_truth fields f).total_samples =
      (min predictions.length ground_truth.length : ℤ) ∧
    calculate_field_metrics predictions ground_truth fields =
      calculate_field_metrics
        (predictions.take (min predictions.length ground_truth.length))
        (ground_truth.take (min predictions.length ground_truth.length))
        fields := by
  constructor
  · unfold calculate_field_metrics
    rw [foldPairs_total fields f h]
    simp [List.length_zip]
  · unfold calculate_field_metrics
    rw [← zip_take_min]

/-- Witness for the amended C9 theorem: two predictions, one ground
truth, single field `"a"`. -/
theorem calculate_field_metrics_truncates_witness :
    (["a".toList].count "a".toList = 1) ∧
    ((calculate_field_metrics [[], []] [[]] ["a".toList] "a".toList).total_samples =
      (min ([[], []] : List PyDict).length ([[]] : List PyDict).length : ℤ) ∧
    calculate_field_metrics [[], []] [[]] ["a".toList] =
      calculate_field_metrics
        (([[], []] : List PyDict).take
          (min ([[], []] : List PyDict).length ([[]] : List PyDict).length))
        (([[]] : List PyDict).take
          (min ([[], []] : List PyDict).length ([[]] : List PyDict).length))
        ["a".toList]) :=
  ⟨by decide,
   calculate_field_metrics_truncates [[], []] [[]] ["a".toList] "a".toList
     (by decide)⟩

end DocExtract

namespace DocExtract

theorem pyFormatN_nil (n : ℕ) : pyFormatN n [] = [] := rfl

theorem pagesLoop_eq (sep : List Char) (ps : List OCRResult) :
    ∀ i, 2 ≤ i →
      pagesLoop sep i ps =
        (sepJoin sep i ps,
         (ps.map (fun r => r.confidence * (r.word_count : ℚ))).sum,
         (ps.map OCRResult.word_count).sum,
         (ps.map (fun r => timeOr0 r.processing_time_ms)).sum) := by
  induction ps with
  | nil => intro i _; simp [pagesLoop, sepJoin]
  | cons r rest ih =>
    intro i hi
    unfold pagesLoop sepJoin
    rw [ih (i + 1) (by omega)]
    have hsep : (if sep ≠ [] ∧ i > 1 then pyFormatN i sep else []) =
        pyFormatN i sep := by
      rcases sep with _ | ⟨c, cs⟩
      · rw [pyFormatN_nil]; simp
      · rw [if_pos ⟨by simp, by omega⟩]
    rw [hsep]
    simp [List.map_cons, List.sum_cons]

/-- C2: for every non-empty page list, `extract_from_multiple` returns
the page texts concatenated in input order with the formatted separator
inserted before every page after the first and nowhere else, confidence
equal to the word-count-weighted mean of the page confidences (`0` when
the total word count is `0`), `word_count` the sum of the page word
counts, and processing time the sum of the per-page timings; in
particular the spec's example — pages `("ab cd", 0.9, 2 words)` and
`("ef", 0.6, 1 word)` — combines to confidence `0.8` and word count
`3`. -/
theorem extract_from_multiple_spec (lang sep : List Char)
    (p : OCRResult) (rest : List OCRResult) :
    (extract_from_multiple lang sep (p :: rest) =
      { text := p.text ++ sepJoin sep 2 rest,
        confidence :=
          if ((p :: rest).map OCRResult.word_count).sum = 0 then 0
          else ((p :: rest).map
              (fun r => r.confidence * (r.word_count : ℚ))).sum /
            ((((p :: rest).map OCRResult.word_count).sum : ℕ) : ℚ),
        language := lang,
        word_count := ((p :: rest).map OCRResult.word_count).sum,
        processing_time_ms :=
          some (((p :: rest).map
            (fun r => timeOr0 r.processing_time_ms)).sum) }) ∧
    (extract_from_multiple lang "\n\n".toList
        [{ text := "ab cd".toList, confidence := 9 / 10, language := lang,
           word_count := 2, processing_time_ms := some 5 },
         { text := "ef".toList, confidence := 6 / 10, language := lang,
           word_count := 1, processing_time_ms := some 7 }]).confidence =
      4 / 5 ∧
    (extract_from_multiple lang "\n\n".toList
        [{ text := "ab cd".toList, confidence := 9 / 10, language := lang,
           word_count := 2, processing_time_ms := some 5 },
         { text := "ef".toList, confidence := 6 / 10, language := lang,
           word_count := 1, processing_time_ms := some 7 }]).word_count =
      3 := by
  have main : ∀ (sep' : List Char) (p' : OCRResult) (rest' : List OCRResult),
      extract_from_multiple lang sep' (p' :: rest') =
        { text := p'.text ++ sepJoin sep' 2 rest',
          confidence :=
            if ((p' :: rest').map OCRResult.word_count).sum = 0 then 0
            else ((p' :: rest').map
                (fun r => r.confidence * (r.word_count : ℚ))).sum /
              ((((p' :: rest').map OCRResult.word_count).sum : ℕ) : ℚ),
          language := lang,
          word_count := ((p' :: rest').map OCRResult.word_count).sum,
          processing_time_ms :=
            some (((p' :: rest').map
              (fun r => timeOr0 r.processing_time_ms)).sum) } := by
    intro sep' p' rest'
    unfold extract_from_multiple
    rw [if_neg (by simp)]
    have hloop : pagesLoop sep' 1 (p' :: rest') =
        (p'.text ++ sepJoin sep' 2 rest',
         ((p' :: rest').map
           (fun r => r.confidence * (r.word_count : ℚ))).sum,
         ((p' :: rest').map OCRResult.word_count).sum,
         ((p' :: rest').map (fun r => timeOr0 r.processing_time_ms)).sum) := by
      unfold pagesLoop
      rw [pagesLoop_eq sep' rest' 2 (by omega)]
      simp [List.map_cons, List.sum_cons]
    rw [hloop]
    dsimp only
    by_cases hw : ((p' :: rest').map OCRResult.word_count).sum = 0
    · rw [if_pos hw,
        if_neg (by omega : ¬ ((p' :: rest').map OCRResult.word_count).sum > 0)]
    · rw [if_neg hw, if_pos (Nat.pos_of_ne_zero hw)]
  refine ⟨main sep p rest, ?_, ?_⟩
  · rw [main "\n\n".toList _ _]
    norm_num
  · rw [main "\n\n".toList _ _]
    simp

end DocExtract

namespace DocExtract

/-- C5: whenever kept candidate line angles exist and the magnitude of
their median is at least `0.5` degrees, `_deskew_image` issues exactly
one rotation about the image center `(w/2, h/2)` with the
border-replicating resampler, passing the median to
`cv2.getRotationMatrix2D` — which rotates the content by the *negative*
of the median in the angle-measurement frame; when no lines are
detected, no angles are kept, or the median magnitude is below `0.5`,
the image is returned unchanged. -/
theorem deskew_image_spec (atan2deg : ℤ → ℤ → ℚ)
    (lines : Option (List LineSeg)) (w h : ℕ) :
    ((keptAngles atan2deg (lines.getD []) ≠ [] ∧
        mkRat 1 2 ≤ ratAbs (npMedian (keptAngles atan2deg (lines.getD []))) →
      deskew_image atan2deg lines w h =
        DeskewOutcome.rotated ((w : ℤ) / 2, (h : ℤ) / 2)
          (npMedian (keptAngles atan2deg (lines.getD [])))
          BorderMode.replicate ∧
      contentRotationDeg (deskew_image atan2deg lines w h) =
        -(npMedian (keptAngles atan2deg (lines.getD []))))) ∧
    ((lines = Option.none ∨ keptAngles atan2deg (lines.getD []) = [] ∨
        ratAbs (npMedian (keptAngles atan2deg (lines.getD []))) < mkRat 1 2) →
      deskew_image atan2deg lines w h = DeskewOutcome.unchanged) := by
  cases lines with
  | none =>
    constructor
    · rintro ⟨hne, _⟩
      exact absurd rfl hne
    · intro _
      rfl
  | some ls =>
    simp only [Option.getD_some]
    constructor
    · rintro ⟨hne, hge⟩
      have hlen : ¬ (ls.length = 0) := by
        intro h0
        rw [List.length_eq_zero] at h0
        subst h0
        exact hne rfl
      have h1 : deskew_image atan2deg (some ls) w h =
          DeskewOutcome.rotated ((w : ℤ) / 2, (h : ℤ) / 2)
            (npMedian (keptAngles atan2deg ls)) BorderMode.replicate := by
        unfold deskew_image
        dsimp only
        rw [if_neg hlen, if_neg hne, if_neg (not_lt.mpr hge)]
      refine ⟨h1, ?_⟩
      rw [h1]
      rfl
    · intro hcase
      rcases hcase with hnone | hang | hlt
      · exact absurd hnone (by simp)
      · unfold deskew_image
        dsimp only
        by_cases hlen : ls.length = 0
        · rw [if_pos hlen]
        · rw [if_neg hlen, if_pos hang]
      · unfold deskew_image
        dsimp only
        by_cases hlen : ls.length = 0
        · rw [if_pos hlen]
        · by_cases hang : keptAngles atan2deg ls = []
          · rw [if_neg hlen, if_pos hang]
          · rw [if_neg hlen, if_neg hang, if_pos hlt]

/-- Witness for the C5 theorem: one detected segment `(0,0) → (10,1)`
whose oracle angle is `6°`; the image is rotated about `(50, 25)` by
the matrix angle `6` (content rotation `-6`). -/
theorem deskew_image_spec_witness :
    (keptAngles (fun _ _ => (6 : ℚ))
        ((some [⟨0, 0, 10, 1⟩] : Option (List LineSeg)).getD []) ≠ [] ∧
      mkRat 1 2 ≤ ratAbs (npMedian (keptAngles (fun _ _ => (6 : ℚ))
        ((some [⟨0, 0, 10, 1⟩] : Option (List LineSeg)).getD [])))) ∧
    (deskew_image (fun _ _ => (6 : ℚ)) (some [⟨0, 0, 10, 1⟩]) 100 50 =
      DeskewOutcome.rotated (((100 : ℕ) : ℤ) / 2, ((50 : ℕ) : ℤ) / 2)
        (npMedian (keptAngles (fun _ _ => (6 : ℚ))
          ((some [⟨0, 0, 10, 1⟩] : Option (List LineSeg)).getD [])))
        BorderMode.replicate ∧
     contentRotationDeg
        (deskew_image (fun _ _ => (6 : ℚ)) (some [⟨0, 0, 10, 1⟩]) 100 50) =
       -(npMedian (keptAngles (fun _ _ => (6 : ℚ))
          ((some [⟨0, 0, 10, 1⟩] : Option (List LineSeg)).getD [])))) :=
  ⟨⟨by decide, by decide⟩,
   (deskew_image_spec (fun _ _ => (6 : ℚ)) (some [⟨0, 0, 10, 1⟩]) 100 50).1
     ⟨by decide, by decide⟩⟩

/-- C6 amended: given the same prompt text and the same current date,
the mock backend's invoice and contract responses are identical outside
the randomly synthesized placeholder fields — `invoice_number`,
`total_ht`, `total_ttc` for invoices (drawn from the RNG when the
corresponding value is not found in the text) and `contract_number`
(always drawn) and `total_amount` for contracts; every other field is a
function of the text and date alone, whatever the RNG state. -/
theorem mock_responses_stable (F : Finders) (today : TodayDates)
    (g1 g2 : Rng) (prompt : List Char) :
    invoiceStableProj (generate_invoice_response F today g1 prompt) =
      invoiceStableProj (generate_invoice_response F today g2 prompt) ∧
    contractStableProj (generate_contract_response F today g1 prompt) =
      contractStableProj (generate_contract_response F today g2 prompt) :=
  ⟨rfl, rfl⟩

/-- C6 counterexample: with random-failure injection not configured at
all (the generators below never raise), two calls to the contract
generator with the same prompt text and date but different RNG states
produce different responses — `contract_number` is always synthesized
from two fresh `random.randint` draws. -/
theorem mock_contract_not_deterministic :
    generate_contract_response noMatchFinders
        ⟨"2025-01-01".toList, "2025-01-31".toList, "2026-01-01".toList⟩
        ⟨fun _ => 0⟩ "contrat".toList ≠
      generate_contract_response noMatchFinders
        ⟨"2025-01-01".toList, "2025-01-31".toList, "2026-01-01".toList⟩
        ⟨fun _ => 1⟩ "contrat".toList := by
  intro hEq
  have h := congrArg MockContractResponse.contract_number hEq
  exact absurd h (by decide)

end DocExtract

namespace DocExtract

/-! ### Lemmas towards the idempotence of `normalize_value` -/

theorem lookup_mem {ps : List (Char × Char)} {c v : Char}
    (h : ps.lookup c = some v) : (c, v) ∈ ps := by
  induction ps with
  | nil => simp [List.lookup] at h
  | cons p rest ih =>
    rw [List.lookup] at h
    cases hbeq : c == p.1 with
    | true =>
      simp only [hbeq] at h
      rw [Option.some_inj] at h
      have hc : c = p.1 := beq_iff_eq.mp hbeq
      have hp : (c, v) = p := by
        rw [hc, ← h]
      rw [hp]
      exact List.mem_cons_self p rest
    | false =>
      simp only [hbeq] at h
      exact List.mem_cons_of_mem p (ih h)

theorem upperLowerPairs_snd_unfixed :
    ∀ p ∈ upperLowerPairs,
      upperLowerPairs.lookup p.2 = Option.none ∧ p.2 ≠ ' ' := by decide

theorem pyLowerChar_idem (c : Char) :
    pyLowerChar (pyLowerChar c) = pyLowerChar c := by
  rcases h : upperLowerPairs.lookup c with _ | v
  · have h1 : pyLowerChar c = c := by
      unfold pyLowerChar
      rw [h]
      rfl
    rw [h1, h1]
  · have h1 : pyLowerChar c = v := by
      unfold pyLowerChar
      rw [h]
      rfl
    rw [h1]
    have h2 := (upperLowerPairs_snd_unfixed (c, v) (lookup_mem h)).1
    unfold pyLowerChar
    rw [h2]
    rfl

theorem pyLowerChar_space : pyLowerChar ' ' = ' ' := rfl

theorem splitWsAux_token_append (t : List Char)
    (ht : ∀ c ∈ t, pyIsWs c = false) (r cur : List Char) :
    splitWsAux (t ++ r) cur = splitWsAux r (t.reverse ++ cur) := by
  induction t generalizing cur with
  | nil => simp
  | cons c t' ih =>
    have hc : pyIsWs c = false := ht c (List.mem_cons_self c t')
    have ht' : ∀ d ∈ t', pyIsWs d = false :=
      fun d hd => ht d (List.mem_cons_of_mem c hd)
    rw [List.cons_append]
    have step : splitWsAux (c :: (t' ++ r)) cur =
        splitWsAux (t' ++ r) (c :: cur) := by
      simp only [splitWsAux]
      rw [if_neg (by simp [hc])]
    rw [step, ih ht' (c :: cur), List.reverse_cons, List.append_assoc,
      List.singleton_append]

theorem splitWsAux_tokens (l : List Char) :
    ∀ cur, (∀ c ∈ cur, pyIsWs c = false) →
      ∀ t ∈ splitWsAux l cur, t ≠ [] ∧ ∀ c ∈ t, pyIsWs c = false := by
  induction l with
  | nil =>
    intro cur hcur t ht
    unfold splitWsAux at ht
    by_cases h : cur = []
    · rw [if_pos h] at ht
      simp at ht
    · rw [if_neg h] at ht
      rcases List.mem_singleton.mp ht with rfl
      refine ⟨by simpa using h, ?_⟩
      intro c hc
      exact hcur c (List.mem_reverse.mp hc)
  | cons a rest ih =>
    intro cur hcur t ht
    unfold splitWsAux at ht
    by_cases ha : pyIsWs a
    · rw [if_pos ha] at ht
      by_cases h : cur = []
      · rw [if_pos h] at ht
        exact ih [] (by simp) t ht
      · rw [if_neg h] at ht
        rcases List.mem_cons.mp ht with rfl | ht'
        · refine ⟨by simpa using h, ?_⟩
          intro c hc
          exact hcur c (List.mem_reverse.mp hc)
        · exact ih [] (by simp) t ht'
    · rw [if_neg ha] at ht
      refine ih (a :: cur) ?_ t ht
      intro c hc
      rcases List.mem_cons.mp hc with rfl | hc'
      · exact eq_false_of_ne_true ha
      · exact hcur c hc'

theorem splitWsAux_chars (l : List Char) :
    ∀ cur t, t ∈ splitWsAux l cur → ∀ c ∈ t, c ∈ l ∨ c ∈ cur := by
  induction l with
  | nil =>
    intro cur t ht c hc
    unfold splitWsAux at ht
    by_cases h : cur = []
    · rw [if_pos h] at ht
      simp at ht
    · rw [if_neg h] at ht
      rcases List.mem_singleton.mp ht with rfl
      exact Or.inr (List.mem_reverse.mp hc)
  | cons a rest ih =>
    intro cur t ht c hc
    unfold splitWsAux at ht
    by_cases ha : pyIsWs a
    · rw [if_pos ha] at ht
      by_cases h : cur = []
      · rw [if_pos h] at ht
        rcases ih [] t ht c hc with h' | h'
        · exact Or.inl (List.mem_cons_of_mem a h')
        · simp at h'
      · rw [if_neg h] at ht
        rcases List.mem_cons.mp ht with rfl | ht'
        · exact Or.inr (List.mem_reverse.mp hc)
        · rcases ih [] t ht' c hc with h' | h'
          · exact Or.inl (List.mem_cons_of_mem a h')
          · simp at h'
    · rw [if_neg ha] at ht
      rcases ih (a :: cur) t ht c hc with h' | h'
      · exact Or.inl (List.mem_cons_of_mem a h')
      · rcases List.mem_cons.mp h' with rfl | h''
        · exact Or.inl (List.mem_cons_self c rest)
        · exact Or.inr h''

/-- The token list of a well-formed join: every token is nonempty and
whitespace-free. -/
def GoodTokens (ts : List (List Char)) : Prop :=
  ∀ t ∈ ts, t ≠ [] ∧ ∀ c ∈ t, pyIsWs c = false

theorem joinSpace_cons₂ (t t' : List Char) (ts : List (List Char)) :
    joinSpace (t :: t' :: ts) = t ++ ' ' :: joinSpace (t' :: ts) := rfl

theorem splitWs_joinSpace (ts : List (List Char)) (h : GoodTokens ts) :
    splitWs (joinSpace ts) = ts := by
  induction ts with
  | nil => rfl
  | cons t ts' ih =>
    rcases h t (List.mem_cons_self t ts') with ⟨htne, htws⟩
    cases ts' with
    | nil =>
      show splitWsAux (joinSpace [t]) [] = [t]
      have : joinSpace [t] = t ++ [] := by simp [joinSpace]
      rw [this, splitWsAux_token_append t htws [] []]
      unfold splitWsAux
      rw [if_neg (by simpa using htne)]
      simp
    | cons t' ts'' =>
      have hgood' : GoodTokens (t' :: ts'') :=
        fun u hu => h u (List.mem_cons_of_mem t hu)
      show splitWsAux (joinSpace (t :: t' :: ts'')) [] = t :: t' :: ts''
      rw [joinSpace_cons₂, splitWsAux_token_append t htws _ []]
      unfold splitWsAux
      rw [if_pos (by decide)]
      rw [if_neg (by simpa using htne)]
      have := ih hgood'
      unfold splitWs at this
      rw [this]
      simp

end DocExtract

namespace DocExtract

theorem stripRight_cons (c : Char) (rest : List Char) :
    stripRight (c :: rest) =
      match stripRight rest with
      | [] => if pyIsWs c = true then [] else [c]
      | r => c :: r := rfl

theorem stripRight_of_nonws (t : List Char) (hne : t ≠ [])
    (hws : ∀ c ∈ t, pyIsWs c = false) : stripRight t = t := by
  induction t with
  | nil => exact absurd rfl hne
  | cons c rest ih =>
    cases rest with
    | nil =>
      rw [stripRight_cons]
      show (if pyIsWs c = true then [] else [c]) = [c]
      rw [if_neg (by simp [hws c (List.mem_cons_self c [])])]
    | cons d rest' =>
      have hrest : stripRight (d :: rest') = d :: rest' :=
        ih (by simp) (fun x hx => hws x (List.mem_cons_of_mem c hx))
      rw [stripRight_cons, hrest]

theorem stripRight_append (a b : List Char) (hb : stripRight b ≠ []) :
    stripRight (a ++ b) = a ++ stripRight b := by
  induction a with
  | nil => simp
  | cons c a' ih =>
    rw [List.cons_append, stripRight_cons, ih]
    have hne : a' ++ stripRight b ≠ [] := by
      intro h
      rcases List.append_eq_nil.mp h with ⟨_, h2⟩
      exact hb h2
    cases hcase : a' ++ stripRight b with
    | nil => exact absurd hcase hne
    | cons x xs => rw [List.cons_append, hcase]

theorem joinSpace_ne_nil (t : List Char) (ts : List (List Char))
    (ht : t ≠ []) : joinSpace (t :: ts) ≠ [] := by
  cases ts with
  | nil => simpa [joinSpace] using ht
  | cons t' ts' =>
    rw [joinSpace_cons₂]
    simp [ht]

theorem stripRight_joinSpace (ts : List (List Char)) (h : GoodTokens ts) :
    stripRight (joinSpace ts) = joinSpace ts := by
  induction ts with
  | nil => rfl
  | cons t ts' ih =>
    rcases h t (List.mem_cons_self t ts') with ⟨htne, htws⟩
    cases ts' with
    | nil => exact stripRight_of_nonws t htne htws
    | cons t' ts'' =>
      have hgood' : GoodTokens (t' :: ts'') :=
        fun u hu => h u (List.mem_cons_of_mem t hu)
      have hj := ih hgood'
      have hjne : joinSpace (t' :: ts'') ≠ [] :=
        joinSpace_ne_nil t' ts''
          (h t' (List.mem_cons_of_mem t (List.mem_cons_self t' ts''))).1
      rw [joinSpace_cons₂]
      have hsp : stripRight (' ' :: joinSpace (t' :: ts'')) =
          ' ' :: joinSpace (t' :: ts'') := by
        simp only [stripRight]
        rw [hj]
        cases hcase : joinSpace (t' :: ts'') with
        | nil => exact absurd hcase hjne
        | cons x xs => rfl
      rw [stripRight_append t _ (by rw [hsp]; simp), hsp]

theorem pyStrip_joinSpace (ts : List (List Char)) (h : GoodTokens ts) :
    pyStrip (joinSpace ts) = joinSpace ts := by
  unfold pyStrip
  have hdrop : (joinSpace ts).dropWhile pyIsWs = joinSpace ts := by
    cases ts with
    | nil => rfl
    | cons t ts' =>
      rcases h t (List.mem_cons_self t ts') with ⟨htne, htws⟩
      cases t with
      | nil => exact absurd rfl htne
      | cons c t'' =>
        have hc : pyIsWs c = false :=
          htws c (List.mem_cons_self c t'')
        cases ts' with
        | nil =>
          show List.dropWhile pyIsWs (c :: t'') = c :: t''
          rw [List.dropWhile_cons_of_neg (by simp [hc])]
        | cons u us =>
          rw [joinSpace_cons₂, List.cons_append,
            List.dropWhile_cons_of_neg (by simp [hc])]
  rw [hdrop]
  exact stripRight_joinSpace ts h

theorem mem_stripRight (l : List Char) (c : Char)
    (hc : c ∈ stripRight l) : c ∈ l := by
  induction l with
  | nil => simp [stripRight] at hc
  | cons d rest ih =>
    rw [stripRight_cons] at hc
    cases hcase : stripRight rest with
    | nil =>
      rw [hcase] at hc
      dsimp only at hc
      by_cases hd : pyIsWs d = true
      · rw [if_pos hd] at hc
        simp at hc
      · rw [if_neg hd] at hc
        rcases List.mem_singleton.mp hc with rfl
        exact List.mem_cons_self c rest
    | cons x xs =>
      rw [hcase] at hc
      dsimp only at hc
      rcases List.mem_cons.mp hc with rfl | hc2
      · exact List.mem_cons_self c rest
      · have hmem : c ∈ stripRight rest := by
          rw [hcase]
          exact hc2
        exact List.mem_cons_of_mem d (ih hmem)

theorem mem_dropWhile (p : Char → Bool) (l : List Char) (c : Char)
    (hc : c ∈ l.dropWhile p) : c ∈ l := by
  induction l with
  | nil => simp at hc
  | cons d rest ih =>
    by_cases hd : p d
    · rw [List.dropWhile_cons_of_pos hd] at hc
      exact List.mem_cons_of_mem d (ih hc)
    · rw [List.dropWhile_cons_of_neg hd] at hc
      exact hc

theorem mem_pyStrip (l : List Char) (c : Char) (hc : c ∈ pyStrip l) :
    c ∈ l := by
  unfold pyStrip at hc
  exact mem_dropWhile pyIsWs l c (mem_stripRight _ c hc)

theorem mem_joinSpace (ts : List (List Char)) (c : Char)
    (hc : c ∈ joinSpace ts) : c = ' ' ∨ ∃ t ∈ ts, c ∈ t := by
  induction ts with
  | nil => simp [joinSpace] at hc
  | cons t ts' ih =>
    cases ts' with
    | nil =>
      right
      exact ⟨t, List.mem_cons_self t [], by simpa [joinSpace] using hc⟩
    | cons t' ts'' =>
      rw [joinSpace_cons₂] at hc
      rcases List.mem_append.mp hc with h' | h'
      · exact Or.inr ⟨t, List.mem_cons_self t _, h'⟩
      · rcases List.mem_cons.mp h' with rfl | h''
        · exact Or.inl rfl
        · rcases ih h'' with h3 | ⟨u, hu, hcu⟩
          · exact Or.inl h3
          · exact Or.inr ⟨u, List.mem_cons_of_mem t hu, hcu⟩

end DocExtract

namespace DocExtract

theorem pyReplaceToSpace_chars (p : Char) (l : List Char) (c : Char)
    (hc : c ∈ pyReplaceToSpace p l) : c = ' ' ∨ (c ∈ l ∧ c ≠ p) := by
  unfold pyReplaceToSpace at hc
  rcases List.mem_map.mp hc with ⟨d, hd, hde⟩
  by_cases hdp : d = p
  · rw [if_pos hdp] at hde
    exact Or.inl hde.symm
  · rw [if_neg hdp] at hde
    exact Or.inr ⟨hde ▸ hd, hde ▸ hdp⟩

theorem pyReplaceToSpace_id (p : Char) (l : List Char)
    (h : ∀ c ∈ l, c ≠ p) : pyReplaceToSpace p l = l := by
  unfold pyReplaceToSpace
  have h' : ∀ c ∈ l, (if c = p then ' ' else c) = c := by
    intro c hc
    rw [if_neg (h c hc)]
  rw [List.map_congr_left h']
  simp

theorem foldReplace_chars (ps : List Char) :
    ∀ (l : List Char) (c : Char),
      c ∈ ps.foldl (fun acc q => pyReplaceToSpace q acc) l →
      c = ' ' ∨ (c ∈ l ∧ c ∉ ps) := by
  induction ps with
  | nil =>
    intro l c hc
    exact Or.inr ⟨hc, by simp⟩
  | cons p ps' ih =>
    intro l c hc
    rw [List.foldl_cons] at hc
    rcases ih (pyReplaceToSpace p l) c hc with rfl | ⟨hmem, hnot⟩
    · exact Or.inl rfl
    · rcases pyReplaceToSpace_chars p l c hmem with rfl | ⟨hl, hne⟩
      · exact Or.inl rfl
      · refine Or.inr ⟨hl, ?_⟩
        intro hmem'
        rcases List.mem_cons.mp hmem' with rfl | h'
        · exact hne rfl
        · exact hnot h'

theorem foldReplace_id (ps : List Char) :
    ∀ l : List Char, (∀ c ∈ l, c ∉ ps) →
      ps.foldl (fun acc q => pyReplaceToSpace q acc) l = l := by
  induction ps with
  | nil => intro l _; rfl
  | cons p ps' ih =>
    intro l h
    rw [List.foldl_cons]
    have hstep : pyReplaceToSpace p l = l :=
      pyReplaceToSpace_id p l
        (fun c hc hcp => h c hc (hcp ▸ List.mem_cons_self p ps'))
    rw [hstep]
    exact ih l (fun c hc hc' => h c hc (List.mem_cons_of_mem p hc'))

theorem replacePunct_chars (l : List Char) (c : Char)
    (hc : c ∈ replacePunct l) : (c = ' ' ∨ c ∈ l) ∧ c ∉ punctChars := by
  unfold replacePunct at hc
  rcases foldReplace_chars punctChars l c hc with rfl | ⟨hl, hnp⟩
  · exact ⟨Or.inl rfl, by decide⟩
  · exact ⟨Or.inr hl, hnp⟩

theorem replacePunct_id (l : List Char)
    (h : ∀ c ∈ l, c ∉ punctChars) : replacePunct l = l := by
  unfold replacePunct
  exact foldReplace_id punctChars l h

theorem pyLower_id (l : List Char)
    (h : ∀ c ∈ l, pyLowerChar c = c) : pyLower l = l := by
  unfold pyLower
  rw [List.map_congr_left h]
  simp

/-- Core of idempotence: the last three stages of `normalize_value`
produce a string that the whole five-stage pipeline maps to itself,
provided its characters are fixed by lowercasing. -/
theorem pipeline_fixed (w : List Char)
    (hw : ∀ c ∈ w, pyLowerChar c = c) :
    collapseWs (replacePunct (collapseWs (pyStrip
      (pyLower (collapseWs (replacePunct w)))))) =
    collapseWs (replacePunct w) := by
  have hgood : GoodTokens (splitWs (replacePunct w)) := by
    intro t ht
    exact splitWsAux_tokens (replacePunct w) [] (by simp) t ht
  have hchars : ∀ c ∈ collapseWs (replacePunct w),
      pyLowerChar c = c ∧ c ∉ punctChars := by
    intro c hc
    unfold collapseWs at hc
    rcases mem_joinSpace _ c hc with rfl | ⟨t, ht, hct⟩
    · exact ⟨pyLowerChar_space, by decide⟩
    · have hcw : c ∈ replacePunct w := by
        rcases splitWsAux_chars (replacePunct w) [] t ht c hct with h' | h'
        · exact h'
        · simp at h'
      rcases replacePunct_chars w c hcw with ⟨hsp, hpn⟩
      rcases hsp with rfl | hcw'
      · exact ⟨pyLowerChar_space, hpn⟩
      · exact ⟨hw c hcw', hpn⟩
  have h1 : pyLower (collapseWs (replacePunct w)) =
      collapseWs (replacePunct w) :=
    pyLower_id _ (fun c hc => (hchars c hc).1)
  rw [h1]
  have h2 : pyStrip (collapseWs (replacePunct w)) =
      collapseWs (replacePunct w) := by
    unfold collapseWs
    exact pyStrip_joinSpace _ hgood
  rw [h2]
  have h3 : collapseWs (collapseWs (replacePunct w)) =
      collapseWs (replacePunct w) := by
    show collapseWs (joinSpace (splitWs (replacePunct w))) = _
    unfold collapseWs
    rw [splitWs_joinSpace _ hgood]
  rw [h3]
  have h4 : replacePunct (collapseWs (replacePunct w)) =
      collapseWs (replacePunct w) :=
    replacePunct_id _ (fun c hc => (hchars c hc).2)
  rw [h4, h3]

/-- C8: `normalize_value` is idempotent — renormalizing its string
output returns the same string, for every input value. -/
theorem normalize_value_idempotent (v : Value) :
    normalize_value (Value.str (normalize_value v)) = normalize_value v := by
  cases v with
  | none => decide
  | str s =>
    show collapseWs (replacePunct (collapseWs (pyStrip (pyLower
      (normalize_value (Value.str s)))))) = normalize_value (Value.str s)
    show collapseWs (replacePunct (collapseWs (pyStrip (pyLower
      (collapseWs (replacePunct (collapseWs (pyStrip (pyLower s))))))))) = _
    exact pipeline_fixed _ (fun c hc => by
      rcases mem_joinSpace _ c (by exact hc) with rfl | ⟨t, ht, hct⟩
      · exact pyLowerChar_space
      · have : c ∈ pyStrip (pyLower s) := by
          rcases splitWsAux_chars (pyStrip (pyLower s)) [] t ht c hct with h' | h'
          · exact h'
          · simp at h'
        have hcl : c ∈ pyLower s := mem_pyStrip _ c this
        rcases List.mem_map.mp hcl with ⟨d, _, rfl⟩
        exact pyLowerChar_idem d)
  | int n =>
    exact pipeline_fixed _ (fun c hc => by
      rcases mem_joinSpace _ c (by exact hc) with rfl | ⟨t, ht, hct⟩
      · exact pyLowerChar_space
      · have : c ∈ pyStrip (pyLower (pyStr (Value.int n))) := by
          rcases splitWsAux_chars (pyStrip (pyLower (pyStr (Value.int n))))
            [] t ht c hct with h' | h'
          · exact h'
          · simp at h'
        have hcl : c ∈ pyLower (pyStr (Value.int n)) := mem_pyStrip _ c this
        rcases List.mem_map.mp hcl with ⟨d, _, rfl⟩
        exact pyLowerChar_idem d)
  | float q =>
    exact pipeline_fixed _ (fun c hc => by
      rcases mem_joinSpace _ c (by exact hc) with rfl | ⟨t, ht, hct⟩
      · exact pyLowerChar_space
      · have : c ∈ pyStrip (pyLower (pyStr (Value.float q))) := by
          rcases splitWsAux_chars (pyStrip (pyLower (pyStr (Value.float q))))
            [] t ht c hct with h' | h'
          · exact h'
          · simp at h'
        have hcl : c ∈ pyLower (pyStr (Value.float q)) := mem_pyStrip _ c this
        rcases List.mem_map.mp hcl with ⟨d, _, rfl⟩
        exact pyLowerChar_idem d)

end DocExtract
